import Mathlib

/-!
Verification development for the AI Orchestrator with Containers repository.

The Python sources are shallowly embedded as executable Lean definitions:

* `orchestrator/llm_integration.py` — step registry, heuristic (mock) selector,
  and the classifier-backed selector with its fallback logic;
* `orchestrator/orchestrator.py` — parameter extraction, parallel eligibility,
  the sequential and parallel execution branches, and per-step result records;
* `orchestrator/app.py` — the HTTP boundary;
* `containers/data_cleaning/data_cleaning.py`,
  `containers/sentiment_analysis/sentiment_analysis.py`,
  `containers/text_summarization/summarize.py` — the three step programs.

Modelling conventions.  Strings are handled as `List Char` (`String.data`),
matching Python's per-character string semantics for the ASCII range; the
Unicode tables behind `str.lower`, `\w`, `\s`, `\d` and `unicodedata.NFKD` are
modelled on their ASCII ranges, which is exact for every ASCII input.  The
specific regular expressions used by the sources are compiled by hand into
deterministic matchers that reproduce Python's leftmost, greedy/lazy
backtracking order.  External effects (Docker subprocess outcomes, the remote
classifier call, the JSON parser's verdict on the classifier's reply) enter as
explicit parameters; file contents exchanged through the per-run temporary
directory are tracked by path.  Python `float` arithmetic is modelled with
exact rationals; no theorem below evaluates a division.  Recursions are fuelled
by the length of the scanned list so that every definition reduces in the
kernel; each fuel budget is sufficient because every step consumes at least one
character.
-/

/-! ## Character classes and basic string machinery -/

/-- Python `re` whitespace class `\s`, restricted to its ASCII range
(space, tab, newline, carriage return, vertical tab, form feed). -/
def isPyWs (c : Char) : Bool :=
  c = ' ' || c = '\t' || c = '\n' || c = '\r' || c = Char.ofNat 11 || c = Char.ofNat 12

/-- Python `\d` on its ASCII range. -/
def isAsciiDigit (c : Char) : Bool :=
  '0' ≤ c && c ≤ '9'

/-- `[a-zA-Z]`. -/
def isAsciiLetter (c : Char) : Bool :=
  ('a' ≤ c && c ≤ 'z') || ('A' ≤ c && c ≤ 'Z')

/-- Python `\w` on its ASCII range: `[a-zA-Z0-9_]`. -/
def isWordChar (c : Char) : Bool :=
  isAsciiLetter c || isAsciiDigit c || c = '_'

/-- Python `str.lower` on the ASCII range (`Char.toLower` lowercases `A`–`Z`). -/
def pyLower (l : List Char) : List Char :=
  l.map Char.toLower

/-- Python's substring test `sub in s` over character lists. -/
def containsL : List Char → List Char → Bool
  | [], sub => sub.isEmpty
  | l@(_ :: rest), sub => sub.isPrefixOf l || containsL rest sub

/-- Value of a little-endian list of decimal digit characters. -/
def digitsVal : List Char → Nat
  | [] => 0
  | c :: r => (c.toNat - 48) + 10 * digitsVal r

/-- Little-endian decimal digits of `n` (fuelled; `natReprAux n n` is exact). -/
def natReprAux : Nat → Nat → List Char
  | 0, _ => []
  | _, 0 => []
  | fuel + 1, n + 1 => Nat.digitChar ((n + 1) % 10) :: natReprAux fuel ((n + 1) / 10)

/-- Python's decimal rendering of a natural number (`str(i)` / f-string interpolation). -/
def natRepr (n : Nat) : String :=
  if n = 0 then "0" else String.mk (natReprAux n n).reverse

/-! ## `orchestrator/llm_integration.py` -/

/-- The step registry: `LLMDecisionEngine.available_containers`, a static mapping
from step name to capability description, in declaration order. -/
def available_containers : List (String × String) :=
  [("data-cleaning",
    "Cleans text by removing special characters, normalizing spaces, and converting to lowercase"),
   ("sentiment-analysis",
    "Analyzes the sentiment of text, providing a score from -1 (negative) to 1 (positive)"),
   ("text-summarization",
    "Creates a concise summary of longer text by extracting key sentences")]

/-- Registry keys in declaration order. -/
def registry_names : List String :=
  available_containers.map Prod.fst

/-- Keyword group for `data-cleaning` (`"clean" in request_lower or "remove" in request_lower`). -/
def cleaningGroupHit (rl : List Char) : Bool :=
  containsL rl "clean".data || containsL rl "remove".data

/-- Keyword group for `sentiment-analysis`. -/
def sentimentGroupHit (rl : List Char) : Bool :=
  ["sentiment", "analyze", "feeling", "emotion", "positive", "negative"].any
    (fun w => containsL rl w.data)

/-- Keyword group for `text-summarization`. -/
def summarizationGroupHit (rl : List Char) : Bool :=
  ["summarize", "summary", "shorten", "brief", "concise"].any
    (fun w => containsL rl w.data)

/-- `LLMDecisionEngine._mock_determine_containers`: keyword-based heuristic
selection with the fixed `["data-cleaning"]` default. -/
def mock_determine_containers (user_request : String) : List String :=
  let rl := pyLower user_request.data
  let containers :=
    (if cleaningGroupHit rl then ["data-cleaning"] else []) ++
    (if sentimentGroupHit rl then ["sentiment-analysis"] else []) ++
    (if summarizationGroupHit rl then ["text-summarization"] else [])
  if containers = [] then ["data-cleaning"] else containers

/-- Outcome of the classifier round-trip in `LLMDecisionEngine.determine_containers`,
as seen by the code after the external call and `json.loads`:
an exception raised by the API call (timeout, transport error, bad response
object), a reply `json.loads` rejects, a JSON array, an object carrying a
`containers` field, or JSON of any other shape. -/
inductive ClassifierResponse where
  | callError
  | malformedJson
  | jsonList (containers : List String)
  | jsonObjContainers (containers : List String)
  | jsonOther
deriving DecidableEq, Repr

/-- The validation loop: keep the suggested names found in the registry, in order. -/
def validateContainers (cs : List String) : List String :=
  cs.filter (fun c => registry_names.contains c)

/-- `LLMDecisionEngine.determine_containers` on the non-mock path, as a function
of the classifier outcome.  Any exception and any JSON parse failure fall back
to the heuristic; a parsed-but-unexpected shape yields the empty plan; a list
whose valid entries are empty while the raw list was non-empty also falls back. -/
def determine_containers (resp : ClassifierResponse) (user_request : String) : List String :=
  match resp with
  | .callError => mock_determine_containers user_request
  | .malformedJson => mock_determine_containers user_request
  | .jsonOther => []
  | .jsonList cs =>
      let valid := validateContainers cs
      if valid = [] ∧ cs ≠ [] then mock_determine_containers user_request else valid
  | .jsonObjContainers cs =>
      let valid := validateContainers cs
      if valid = [] ∧ cs ≠ [] then mock_determine_containers user_request else valid

/-! ## `orchestrator/orchestrator.py` — parameter extraction

`Orchestrator.extract_parameters` searches the lowercased request with the
pattern `summarize\s+.*?\s+to\s+(\d+)\s+sentences` and tests two parallel
synonyms by substring.  The pattern is compiled by hand below, reproducing the
engine's backtracking order: start positions left to right, `\s+` greedy
(longest suffix first), `.*?` lazy (shortest first, never across a newline). -/

/-- Extracted parameters (`params` dict): `summary_length` present iff the
length phrase matched, `parallel_execution` present (true) iff a parallel
synonym occurred.  The empty dict is `⟨none, false⟩`. -/
structure Params where
  summary_length : Option Nat := none
  parallel_execution : Bool := false
deriving DecidableEq, Repr

/-- Suffixes after `\s+`, in greedy order: consume the maximal whitespace run
first, then backtrack to shorter non-empty runs. -/
def wsPlusSuffixes (l : List Char) : List (List Char) :=
  let n := (l.takeWhile isPyWs).length
  (List.range n).map (fun i => l.drop (n - i))

/-- Suffixes after `.*?`, in lazy order: consume 0, 1, 2, … characters, none of
them a newline. -/
def dotLazySuffixes (l : List Char) : List (List Char) :=
  let n := (l.takeWhile (fun c => c ≠ '\n')).length
  (List.range (n + 1)).map (fun i => l.drop i)

/-- Match the deterministic tail `to\s+(\d+)\s+sentences` at the head of `l`,
returning the captured number.  Each `\s+`/`\d+` run is a maximal munch; this is
exact because the neighbouring character classes are disjoint. -/
def matchToClause (l : List Char) : Option Nat :=
  match l with
  | 't' :: 'o' :: r =>
      let w1 := r.takeWhile isPyWs
      let r1 := r.drop w1.length
      let ds := r1.takeWhile isAsciiDigit
      let r2 := r1.drop ds.length
      let w2 := r2.takeWhile isPyWs
      let r3 := r2.drop w2.length
      if w1 ≠ [] ∧ ds ≠ [] ∧ w2 ≠ [] ∧ "sentences".data.isPrefixOf r3 then
        some (digitsVal ds.reverse)
      else none
  | _ => none

/-- Match `\s+.*?\s+to\s+(\d+)\s+sentences` at the head of `rest` (the text
following a literal `summarize`), trying continuations in backtracking order. -/
def matchAfterSummarize (rest : List Char) : Option Nat :=
  (((wsPlusSuffixes rest).flatMap dotLazySuffixes).flatMap wsPlusSuffixes).findSome?
    matchToClause

/-- `re.search` of the summary-length pattern: try each start position left to
right for a literal `summarize` followed by the rest of the pattern. -/
def searchSummarizeLen : List Char → Option Nat
  | [] => none
  | c :: rest =>
      if "summarize".data.isPrefixOf (c :: rest) then
        match matchAfterSummarize ((c :: rest).drop 9) with
        | some n => some n
        | none => searchSummarizeLen rest
      else searchSummarizeLen rest

/-- `"parallel" in user_request.lower() or "concurrently" in user_request.lower()`. -/
def hasParallelHint (user_request : String) : Bool :=
  containsL (pyLower user_request.data) "parallel".data ||
  containsL (pyLower user_request.data) "concurrently".data

/-- `Orchestrator.extract_parameters`: a pure function of the request text. -/
def extract_parameters (user_request : String) : Params :=
  { summary_length := searchSummarizeLen (pyLower user_request.data)
  , parallel_execution := hasParallelHint user_request }

/-! ## `orchestrator/orchestrator.py` — execution -/

/-- `os.path.join(temp_dir, "input.txt")`: the shared staging file holding the
request's input payload. -/
def initialInput (tempDir : String) : String :=
  tempDir ++ "/input.txt"

/-- `os.path.join(temp_dir, f"output_{i}.txt")`: the output slot for step index `i`. -/
def outPath (tempDir : String) (i : Nat) : String :=
  tempDir ++ "/output_" ++ natRepr i ++ ".txt"

/-- Per-step terminal status (the `status` field of a result dict). -/
inductive Status where
  | success
  | error
deriving DecidableEq, Repr

/-- One step's result dict as built by `Orchestrator._run_container`. -/
structure StepResult where
  container : String
  status : Status
  output_file : Option String
  error : Option String
deriving DecidableEq, Repr

/-- Outcome of one `docker run` subprocess invocation (external to the
orchestrator): exit 0, a `CalledProcessError` carrying stderr text, or any
other exception. -/
inductive RunOutcome where
  | ok
  | failed (stderr : String)
  | exn (msg : String)
deriving DecidableEq, Repr

/-- `isOk o` iff the subprocess exited with status 0. -/
def isOk : RunOutcome → Bool
  | .ok => true
  | _ => false

/-- The step-specific trailing arguments `Orchestrator._run_container` appends to
the fixed `<input> <output>` pair: only a summarization step with an extracted
length receives one. -/
def containerExtraArgs (container : String) (params : Params) : List String :=
  if container = "text-summarization" then
    match params.summary_length with
    | some n => [natRepr n]
    | none => []
  else []

/-- `Orchestrator._run_container`: build the result dict from the subprocess
outcome.  On `CalledProcessError` the recorded message is the captured stderr,
or `"Unknown error occurred"` when stderr is falsy; any other exception is
recorded via its message.  (The function truncates the output file and reads it
back for the preview; file contents are tracked elsewhere, by path.) -/
def run_container (container input_file output_file : String) (outcome : RunOutcome) :
    StepResult :=
  match outcome with
  | .ok =>
      { container := container, status := .success
      , output_file := some output_file, error := none }
  | .failed stderr =>
      { container := container, status := .error, output_file := none
      , error := some (if stderr = "" then "Unknown error occurred" else stderr) }
  | .exn msg =>
      { container := container, status := .error, output_file := none, error := some msg }

/-- `Orchestrator._can_run_in_parallel`: `len(set(containers)) == 1`. -/
def can_run_in_parallel (containers : List String) : Bool :=
  containers.dedup.length = 1

/-- The parallel-eligibility conjunction computed in `process_request`:
a parallel hint, more than one step, and all step names identical. -/
def use_parallel (params : Params) (containers : List String) : Bool :=
  params.parallel_execution && decide (1 < containers.length) &&
    can_run_in_parallel containers

/-- The sequential loop of `process_request`: step `i` reads `current`, writes
`output_{i}.txt`, its result is appended; on the first error the loop breaks
with `current` not advanced, otherwise `current` becomes this step's output.
Returns the result list and the final `final_output_file = current_input`. -/
def runSeqAux (tempDir : String) (outcomes : Nat → RunOutcome) :
    List String → Nat → String → List StepResult × String
  | [], _, current => ([], current)
  | c :: rest, i, current =>
      let r := run_container c current (outPath tempDir i) (outcomes i)
      if r.status = .error then ([r], current)
      else
        let p := runSeqAux tempDir outcomes rest (i + 1) (outPath tempDir i)
        (r :: p.1, p.2)

/-- Sequential execution of a whole plan, starting from the staged input file. -/
def runSequential (tempDir : String) (outcomes : Nat → RunOutcome)
    (containers : List String) : List StepResult × String :=
  runSeqAux tempDir outcomes containers 0 (initialInput tempDir)

/-- The `container_files` dict of the parallel branch: for each `(i, container)`
in `enumerate(containers)` the entry for key `container` is overwritten with
`(initial_input, output_{i}.txt)` — later indices overwrite earlier ones. -/
def container_files (tempDir : String) (containers : List String) :
    String → Option (String × String) :=
  containers.enum.foldl
    (fun m p => fun k =>
      if k = p.2 then some (initialInput tempDir, outPath tempDir p.1) else m k)
    (fun _ => none)

/-- The dict lookup `container_files[container]`.  In the code the key is always
present (keys are exactly the planned container names), so the default is
unreachable. -/
def cf_lookup (tempDir : String) (containers : List String) (c : String) :
    String × String :=
  (container_files tempDir containers c).getD ("", "")

/-- The input paths handed to the dispatched parallel step processes, in
submission order. -/
def dispatchedInputs (tempDir : String) (containers : List String) : List String :=
  containers.map (fun c => (cf_lookup tempDir containers c).1)

/-- The output paths handed to the dispatched parallel step processes, in
submission order. -/
def dispatchedOutputs (tempDir : String) (containers : List String) : List String :=
  containers.map (fun c => (cf_lookup tempDir containers c).2)

/-- The successful return value of `Orchestrator.process_request` (wall-clock
`execution_time` is not modelled; `output_file` is the path whose contents are
returned as `output`). -/
structure RunRecord where
  request : String
  execution_plan : List String
  parallel : Bool
  results : List StepResult
  output_file : String
  parameters : Params
deriving DecidableEq, Repr

/-- `Orchestrator.process_request` returns either an error dict (domain-level
failure before execution) or the full result dict. -/
inductive OrchResult where
  | domainError (msg : String)
  | success (run : RunRecord)
deriving DecidableEq, Repr

/-- `Orchestrator.process_request`, for a request delivered with direct input
text (the HTTP boundary always passes text; the CLI file-reading branch and its
read-failure error dict are not exercised by these claims).  `useMock` selects
the selector variant, `resp` is the classifier outcome on the non-mock path,
and `outcomes k` is the subprocess outcome of the `k`-th dispatched step.  In
the parallel branch results are listed in submission order; the code collects
them in completion order, which no theorem below depends on. -/
def process_request (useMock : Bool) (resp : ClassifierResponse) (tempDir : String)
    (outcomes : Nat → RunOutcome) (user_request : String) (input_text : Option String) :
    OrchResult :=
  let params := extract_parameters user_request
  match input_text with
  | none => .domainError "No input text provided"
  | some txt =>
    if txt = "" then .domainError "No input text provided"
    else
      let containers :=
        if useMock then mock_determine_containers user_request
        else determine_containers resp user_request
      if containers = [] then .domainError "Could not determine which containers to run"
      else
        if use_parallel params containers then
          .success
            { request := user_request
            , execution_plan := containers
            , parallel := use_parallel params containers
            , results := containers.enum.map (fun p =>
                run_container p.2 (cf_lookup tempDir containers p.2).1
                  (cf_lookup tempDir containers p.2).2 (outcomes p.1))
            , output_file := (cf_lookup tempDir containers (containers.getLastD "")).2
            , parameters := params }
        else
          .success
            { request := user_request
            , execution_plan := containers
            , parallel := use_parallel params containers
            , results := (runSequential tempDir outcomes containers).1
            , output_file := (runSequential tempDir outcomes containers).2
            , parameters := params }

/-! ## `orchestrator/app.py` -/

/-- Behaviour of the orchestrator core as observed by the Flask handler:
a returned value or an uncaught exception. -/
inductive CoreBehavior where
  | returns (r : OrchResult)
  | throws (msg : String)
deriving DecidableEq, Repr

/-- The JSON body of a `/process` response: either the handler's own error
object or the jsonified orchestrator return value. -/
inductive RespBody where
  | errorBody (msg : String)
  | resultBody (r : OrchResult)
deriving DecidableEq, Repr

/-- Python truthiness test `not x` for an optional string field. -/
def falsyStr : Option String → Bool
  | none => true
  | some s => s = ""

/-- Whether the serialized body carries an `error` field. -/
def bodyHasErrorField : RespBody → Bool
  | .errorBody _ => true
  | .resultBody (.domainError _) => true
  | .resultBody (.success _) => false

/-- The `/process` handler: missing or empty `request`/`text` give a 400 with a
fixed message; an uncaught core exception gives a 500 carrying its message; any
returned value is jsonified with status 200. -/
def app_process (req text : Option String) (core : CoreBehavior) : Nat × RespBody :=
  if falsyStr req || falsyStr text then
    (400, .errorBody "Request and input text are required")
  else
    match core with
    | .throws msg => (500, .errorBody msg)
    | .returns r => (200, .resultBody r)

/-! ## Generic `re.sub`/`re.split` scanning machinery

A pattern is represented by its match-at-position function, which either fails
or returns the replacement together with `k` such that `k + 1` characters were
consumed (every pattern of the sources consumes at least one character, so the
scan advances and the fuel `l.length` is sufficient). -/

/-- Leftmost, non-overlapping substitution: at each position try the pattern;
on a match emit the replacement and continue after the consumed characters,
otherwise keep the character and move on. -/
def substAux (try_ : List Char → Option (List Char × Nat)) :
    Nat → List Char → List Char
  | 0, _ => []
  | _, [] => []
  | fuel + 1, c :: rest =>
      match try_ (c :: rest) with
      | some (rep, k) => rep ++ substAux try_ fuel ((c :: rest).drop (k + 1))
      | none => c :: substAux try_ fuel rest

/-- `re.sub` with the pattern's match-at-position function. -/
def subst (try_ : List Char → Option (List Char × Nat)) (l : List Char) : List Char :=
  substAux try_ l.length l

/-- `re.split`: pieces between leftmost non-overlapping matches (`try_` returns
`k` with `k + 1` consumed characters); `acc` holds the current piece reversed. -/
def splitMatchAux (try_ : List Char → Option Nat) :
    Nat → List Char → List Char → List (List Char)
  | 0, acc, _ => [acc.reverse]
  | _, acc, [] => [acc.reverse]
  | fuel + 1, acc, c :: rest =>
      match try_ (c :: rest) with
      | some k => acc.reverse :: splitMatchAux try_ fuel [] ((c :: rest).drop (k + 1))
      | none => splitMatchAux try_ fuel (c :: acc) rest

/-- `re.split` with the pattern's match-at-position function. -/
def splitMatch (try_ : List Char → Option Nat) (l : List Char) : List (List Char) :=
  splitMatchAux try_ l.length [] l

/-- Collapse every whitespace run to a single space: `re.sub(r'\s+', ' ', ·)`. -/
def collapseWs : Nat → List Char → List Char
  | 0, _ => []
  | _, [] => []
  | fuel + 1, c :: rest =>
      if isPyWs c then ' ' :: collapseWs fuel (rest.dropWhile isPyWs)
      else c :: collapseWs fuel rest

/-- `re.sub(r'\s+', ' ', l)`. -/
def normSpace (l : List Char) : List Char :=
  collapseWs l.length l

/-- Python `str.strip()` (whitespace on both ends). -/
def stripWs (l : List Char) : List Char :=
  ((l.dropWhile isPyWs).reverse.dropWhile isPyWs).reverse

/-- Split on a single character (Python `str.split(sep)` with one-char `sep`). -/
def splitOnChar (sep : Char) (l : List Char) : List (List Char) :=
  splitMatch (fun l' => match l' with
    | c :: _ => if c = sep then some 0 else none
    | [] => none) l

/-- Join pieces with a separator. -/
def joinWith (sep : List Char) : List (List Char) → List Char
  | [] => []
  | [p] => p
  | p :: rest => p ++ sep ++ joinWith sep rest

/-! ## `containers/data_cleaning/data_cleaning.py` -/

/-- `unicodedata.normalize('NFKD', text).encode('ASCII', 'ignore').decode('utf-8')`:
non-ASCII characters are dropped.  The NFKD decomposition table (which first
rewrites some non-ASCII characters into ASCII + combining marks) is not
modelled; on ASCII input, where NFKD is the identity, this is exact. -/
def asciiIgnore (l : List Char) : List Char :=
  l.filter (fun c => c.toNat < 128)

/-- `&[a-zA-Z]+;` → `' '` (HTML entities). -/
def entityMatcher : List Char → Option (List Char × Nat)
  | '&' :: rest =>
      let letters := rest.takeWhile isAsciiLetter
      if letters ≠ [] then
        match rest.drop letters.length with
        | ';' :: _ => some ([' '], letters.length + 1)
        | _ => none
      else none
  | _ => none

/-- `<[^>]+>` → `''` (HTML tags). -/
def tagMatcher : List Char → Option (List Char × Nat)
  | '<' :: rest =>
      let inner := rest.takeWhile (fun c => c ≠ '>')
      if inner ≠ [] then
        match rest.drop inner.length with
        | '>' :: _ => some ([], inner.length + 1)
        | _ => none
      else none
  | _ => none

/-- `\[\d+\](?:\[.*?\])?` → `''` (citation references like `[1]` or
`[1][dead link]`).  The optional bracket group is matched greedily; its lazy
`.*?` runs to the first `]` and may not cross a newline. -/
def citationMatcher : List Char → Option (List Char × Nat)
  | '[' :: rest =>
      let ds := rest.takeWhile isAsciiDigit
      if ds ≠ [] then
        match rest.drop ds.length with
        | ']' :: after =>
            let base := ds.length + 1
            match after with
            | '[' :: inner =>
                let body := inner.takeWhile (fun c => c ≠ ']')
                if body.contains '\n' then some ([], base)
                else
                  match inner.drop body.length with
                  | ']' :: _ => some ([], base + body.length + 2)
                  | _ => some ([], base)
            | _ => some ([], base)
        | _ => none
      else none
  | _ => none

/-- `re.sub(r'^X.*$', '', text, flags=re.MULTILINE)`: blank every line that
starts with the literal `X` (the match spans the whole line, the newline
itself survives). -/
def blankLinesStarting (x : List Char) (l : List Char) : List Char :=
  joinWith ['\n']
    ((splitOnChar '\n' l).map (fun line => if x.isPrefixOf line then [] else line))

/-- Standardize double quotation marks: `["“”]` → `"`. -/
def stdDoubleQuote (c : Char) : Char :=
  if c = '"' || c = Char.ofNat 0x201C || c = Char.ofNat 0x201D then '"' else c

/-- Standardize apostrophes: the class of `'` and curly single quotes → `'`. -/
def stdSingleQuote (c : Char) : Char :=
  if c = '\'' || c = Char.ofNat 0x2018 || c = Char.ofNat 0x2019 then '\'' else c

/-- The preserved-character class of
`re.sub(r'[^\w\s\.\,\?\!\:\;\-\(\)\[\]\/\"\']', ' ', text)`. -/
def isPreservedChar (c : Char) : Bool :=
  isWordChar c || isPyWs c ||
    c = '.' || c = ',' || c = '?' || c = '!' || c = ':' || c = ';' || c = '-' ||
    c = '(' || c = ')' || c = '[' || c = ']' || c = '/' || c = '"' || c = '\''

/-- `(\w)\.(\w)\.` → `\1\2` (e.g. `e.g.` → `eg`). -/
def abbrevMatcher : List Char → Option (List Char × Nat)
  | a :: '.' :: b :: '.' :: _ =>
      if isWordChar a && isWordChar b then some ([a, b], 3) else none
  | _ => none

/-- Paragraph-break matcher `\n\s*\n`: a newline, then (greedily, with
backtracking for the final mandatory newline) whitespace up to and including
the last newline of the following whitespace run. -/
def paraBreakMatcher : List Char → Option Nat
  | '\n' :: rest =>
      let w := rest.takeWhile isPyWs
      match (w.enum.filter (fun p => p.2 = '\n')).getLast? with
      | some p => some (p.1 + 1)
      | none => none
  | _ => none

/-- The bullet character `•` (U+2022). -/
def bulletChar : Char := Char.ofNat 0x2022

/-- Line rewriting of the list-format pass: a `^\s*[•\-\*]\s` prefix becomes
`• `; otherwise a `^\s*(\d+)[\.\)]\s` prefix becomes `\1. `; other lines are
kept. -/
def fixListLine (line : List Char) : List Char :=
  let w := line.takeWhile isPyWs
  let r := line.drop w.length
  match r with
  | m :: s :: rest =>
      if (m = bulletChar || m = '-' || m = '*') && isPyWs s then
        bulletChar :: ' ' :: rest
      else
        let ds := r.takeWhile isAsciiDigit
        if ds ≠ [] then
          match r.drop ds.length with
          | p :: s' :: rest' =>
              if (p = '.' || p = ')') && isPyWs s' then ds ++ '.' :: ' ' :: rest'
              else line
          | _ => line
        else line
  | _ => line

/-- `clean_data` from `data_cleaning.py`: the full normalization pipeline, in
source order. -/
def clean_data (text : String) : String :=
  let l0 := asciiIgnore text.data
  let l1 := subst entityMatcher l0
  let l2 := subst tagMatcher l1
  let l3 := subst citationMatcher l2
  let l4 := blankLinesStarting "See also:".data l3
  let l5 := blankLinesStarting "Main article:".data l4
  let l6 := (l5.map stdDoubleQuote).map stdSingleQuote
  let l7 := l6.map (fun c => if isPreservedChar c then c else ' ')
  let l8 := subst abbrevMatcher l7
  let paras := (splitMatch paraBreakMatcher l8).map (fun p => stripWs (normSpace p))
  let l9 := joinWith "\n\n".data (paras.filter (fun p => p ≠ []))
  let lines := (splitOnChar '\n' l9).map fixListLine
  String.mk (joinWith ['\n'] lines)

/-- The `__main__` block of `data_cleaning.py` invoked with readable input and a
writable output path: reads the input, writes `clean_data` of it, exits 0.
Returns (exit status, written output-file contents). -/
def data_cleaning_main (input : String) : Nat × String :=
  (0, clean_data input)

/-! ## `containers/sentiment_analysis/sentiment_analysis.py` -/

/-- Python `str.split()` with no argument: maximal non-whitespace runs. -/
def pySplitWsAux : Nat → List Char → List (List Char)
  | 0, _ => []
  | _, [] => []
  | fuel + 1, c :: rest =>
      if isPyWs c then pySplitWsAux fuel rest
      else ((c :: rest).takeWhile (fun d => ¬ isPyWs d)) ::
        pySplitWsAux fuel ((c :: rest).dropWhile (fun d => ¬ isPyWs d))

/-- Python `str.split()`. -/
def pySplitWhitespace (l : List Char) : List (List Char) :=
  pySplitWsAux l.length l

/-- `re.sub(r'[^\w\s]', '', text.lower()).split()`: the tokenization shared by
the sentiment and summarization scripts. -/
def reWords (l : List Char) : List String :=
  (pySplitWhitespace ((pyLower l).filter (fun c => isWordChar c || isPyWs c))).map
    String.mk

/-- `POSITIVE_WORDS`. -/
def POSITIVE_WORDS : List String :=
  ["good", "great", "excellent", "positive", "wonderful", "amazing", "love",
   "best", "happy", "pleasant", "fantastic", "perfect", "better", "nice"]

/-- `NEGATIVE_WORDS`. -/
def NEGATIVE_WORDS : List String :=
  ["bad", "terrible", "awful", "negative", "horrible", "hate", "worst",
   "poor", "sad", "unpleasant", "disappointing", "worse", "problem"]

/-- The dict `analyze_sentiment` returns (its `score` is a Python float,
modelled as an exact rational — identical on every path a theorem below
evaluates, where no division is reached). -/
structure SentimentResult where
  score : ℚ
  positive_words : Nat
  negative_words : Nat
  classification : String
deriving DecidableEq, Repr

/-- `analyze_sentiment` from `sentiment_analysis.py`. -/
def analyze_sentiment (text : String) : SentimentResult :=
  let words := reWords text.data
  let word_count := words.length
  let pos_count := words.countP (fun w => POSITIVE_WORDS.contains w)
  let neg_count :=
    words.countP (fun w => ¬ POSITIVE_WORDS.contains w ∧ NEGATIVE_WORDS.contains w)
  let score : ℚ :=
    if 0 < word_count then
      max (min (((pos_count : ℚ) - (neg_count : ℚ)) /
        max 1 ((word_count : ℚ) * (1 / 10))) 1) (-1)
    else 0
  { score := score
  , positive_words := pos_count
  , negative_words := neg_count
  , classification :=
      if 0 < score then "positive" else if score < 0 then "negative" else "neutral" }

/-- The `__main__` block of `sentiment_analysis.py` invoked with readable input
and a writable output path: reads the input, writes `json.dumps` of the result
dict (modelled as the dict itself), exits 0. -/
def sentiment_analysis_main (input : String) : Nat × SentimentResult :=
  (0, analyze_sentiment input)

/-! ## `containers/text_summarization/summarize.py` -/

/-- `clean_citations`: the same citation pattern as the cleaning step. -/
def clean_citations (l : List Char) : List Char :=
  subst citationMatcher l

/-- The split condition of
`re.split(r'(?<!\w\.\w.)(?<![A-Z][a-z]\.)(?<=\.|\?|\!)\s', text)` at a position
whose preceding characters (nearest first) are `prevRev` and whose current
character is `c`. -/
def sentSplitCond (prevRev : List Char) (c : Char) : Bool :=
  isPyWs c &&
  (match prevRev with
   | p1 :: _ => p1 = '.' || p1 = '?' || p1 = '!'
   | [] => false) &&
  !(match prevRev with
    | _ :: p2 :: p3 :: p4 :: _ => isWordChar p4 && p3 = '.' && isWordChar p2
    | _ => false) &&
  !(match prevRev with
    | p1 :: p2 :: p3 :: _ => p3.isUpper && p2.isLower && p1 = '.'
    | _ => false)

/-- Sentence splitter: scans the text once, cutting at every single-character
whitespace match of the pattern above. -/
def splitSentencesAux : List Char → List Char → List Char → List (List Char)
  | _, acc, [] => [acc.reverse]
  | prevRev, acc, c :: rest =>
      if sentSplitCond prevRev c then
        acc.reverse :: splitSentencesAux (c :: prevRev) [] rest
      else splitSentencesAux (c :: prevRev) (c :: acc) rest

/-- `re.split` of the sentence pattern. -/
def splitSentences (l : List Char) : List (List Char) :=
  splitSentencesAux [] [] l

/-- `stop_words` (identical in `extract_main_topics` and `summarize_text`). -/
def stop_words : List String :=
  ["the", "and", "is", "in", "it", "to", "of", "for", "with", "as", "that",
   "on", "at", "by", "an", "be", "this", "are"]

/-- `max(word_freq.values()) if word_freq else 1` for the counter of non-stop
words of `ws`. -/
def maxFreq (ws : List String) : Nat :=
  let distinct := ws.dedup.filter (fun w => ¬ stop_words.contains w)
  if distinct = [] then 1 else (distinct.map (fun w => ws.count w)).foldr max 0

/-- The normalized frequency dict: `word_freq.get(w, 0)` after stop-word
deletion and division by `max_freq`. -/
def wordFreqQ (ws : List String) (w : String) : ℚ :=
  if stop_words.contains w then 0 else (ws.count w : ℚ) / (maxFreq ws : ℚ)

/-- `sentence_scores[i]`: the sum of normalized frequencies of the sentence's
tokens (with multiplicity). -/
def sentenceScore (ws : List String) (s : List Char) : ℚ :=
  ((reWords s).map (wordFreqQ ws)).sum

/-- Stable insertion placing `x` before the first element that does not
strictly precede it; folded from the right this yields Python's stable
descending sort by key. -/
def insertDescBy (score : Nat → ℚ) (x : Nat) : List Nat → List Nat
  | [] => [x]
  | y :: ys => if score x < score y then y :: insertDescBy score x ys else x :: y :: ys

/-- `sorted(range(n), key=score, reverse=True)` (stable), the order
`heapq.nlargest` documents. -/
def sortDescBy (score : Nat → ℚ) (l : List Nat) : List Nat :=
  l.foldr (insertDescBy score) []

/-- Ascending insertion for `sorted(top_indices)` (indices are distinct). -/
def insertAsc (x : Nat) : List Nat → List Nat
  | [] => [x]
  | y :: ys => if y < x then y :: insertAsc x ys else x :: y :: ys

/-- `sorted` on index lists. -/
def sortAsc (l : List Nat) : List Nat :=
  l.foldr insertAsc []

/-- Up to `k` repetitions of `\s+[a-z]+`, greedily, as
(whitespace chunk, letter chunk, remainder) triples. -/
def collectGroups : Nat → List Char → List (List Char × List Char × List Char)
  | 0, _ => []
  | k + 1, rem =>
      let w := rem.takeWhile isPyWs
      if w = [] then []
      else
        let r1 := rem.drop w.length
        let lo := r1.takeWhile Char.isLower
        if lo = [] then []
        else
          let rem' := r1.drop lo.length
          (w, lo, rem') :: collectGroups k rem'

/-- Match `([A-Z][a-z]+(?:\s+[a-z]+){1,3})(?:\s+)` at the head of `l`,
returning (captured group, consumed length).  With the maximal `M ≤ 3` inner
groups: if whitespace follows group `M` the match keeps all `M` groups and
greedily consumes that whitespace; otherwise the engine backtracks one
repetition and the whitespace that opened the dropped group becomes the
trailing `\s+` (impossible when `M = 1`, as `{1,3}` requires one repetition). -/
def matchListGroup (l : List Char) : Option (List Char × Nat) :=
  match l with
  | u :: r =>
      if u.isUpper then
        let lo0 := r.takeWhile Char.isLower
        if lo0 = [] then none
        else
          let rem0 := r.drop lo0.length
          let gs := collectGroups 3 rem0
          match gs.getLast? with
          | none => none
          | some lastG =>
              let chunks := gs.map (fun g => g.1 ++ g.2.1)
              let wsAfter := lastG.2.2.takeWhile isPyWs
              if wsAfter ≠ [] then
                let captured := u :: (lo0 ++ chunks.flatten)
                some (captured, captured.length + wsAfter.length)
              else if 2 ≤ gs.length then
                let captured := u :: (lo0 ++ chunks.dropLast.flatten)
                some (captured, captured.length + lastG.1.length)
              else none
      else none
  | [] => none

/-- One attempt of the full pattern `(?:(?:^|\n)(group)(?:\s+))` at the current
position: the `^` alternative applies only at the string start; the `\n`
alternative consumes the newline. -/
def tryListMatch (atStart : Bool) (l : List Char) : Option (List Char × Nat) :=
  match (if atStart then matchListGroup l else none) with
  | some r => some r
  | none =>
      match l with
      | '\n' :: rest => (matchListGroup rest).map (fun p => (p.1, p.2 + 1))
      | _ => none

/-- `re.findall` of the list pattern: captures of leftmost non-overlapping
matches. -/
def findListItemsAux : Nat → Bool → List Char → List (List Char)
  | 0, _, _ => []
  | _, _, [] => []
  | fuel + 1, atStart, l@(_ :: rest) =>
      match tryListMatch atStart l with
      | some (cap, consumed) => cap :: findListItemsAux fuel false (l.drop consumed)
      | none => findListItemsAux fuel false rest

/-- `re.findall(list_pattern, text)`. -/
def findListItems (l : List Char) : List (List Char) :=
  findListItemsAux l.length true l

/-- Python `text.replace(item, '', 1)`: delete the first occurrence. -/
def removeFirstAux : Nat → List Char → List Char → List Char
  | 0, _, _ => []
  | _, [], _ => []
  | fuel + 1, l@(c :: rest), pat =>
      if pat.isPrefixOf l then l.drop pat.length
      else c :: removeFirstAux fuel rest pat

/-- `text.replace(item, '', 1)`. -/
def removeFirst (l pat : List Char) : List Char :=
  removeFirstAux l.length l pat

/-- `\s{2,}` → `' '`. -/
def multiWsMatcher : List Char → Option (List Char × Nat)
  | c :: rest =>
      if isPyWs c then
        let w := rest.takeWhile isPyWs
        if w = [] then none else some ([' '], w.length)
      else none
  | [] => none

/-- `format_lists` from `summarize.py`: when more than three list-like items
are found, remove each item's first occurrence, squeeze repeated whitespace,
and append the items as a bulleted list. -/
def format_lists (text : List Char) : List Char :=
  let items := findListItems text
  if 3 < items.length then
    let t1 := items.foldl removeFirst text
    let t2 := subst multiWsMatcher t1
    t2 ++ "\n\n".data ++ "\n• ".data ++ joinWith "\n• ".data items
  else text

/-- `improve_paragraph_structure` with the default `max_length = 80`: greedy
word wrap (the running length counts one extra per word already on the line,
exactly as the source computes it). -/
def improveParagraph (p : List Char) : List Char :=
  if p.length ≤ 80 then p
  else
    let words := pySplitWhitespace p
    let step := fun (st : List (List Char) × List (List Char)) (word : List Char) =>
      let current_length := (st.2.map List.length).sum + st.2.length
      if 80 < current_length + word.length then
        (st.1 ++ [joinWith [' '] st.2], [word])
      else (st.1, st.2 ++ [word])
    let st := words.foldl step ([], [])
    let lines := if st.2 = [] then st.1 else st.1 ++ [joinWith [' '] st.2]
    joinWith ['\n'] lines

/-- The paragraph-grouping loop of `summarize_text`: flush after at least two
sentences once the joined text exceeds 150 characters. -/
def groupParagraphs (tops : List (List Char)) : List (List Char) :=
  let step := fun (st : List (List Char) × List (List Char)) (s : List Char) =>
    let cur := st.2 ++ [s]
    if 2 ≤ cur.length ∧ 150 < (joinWith [' '] cur).length then
      (st.1 ++ [joinWith [' '] cur], [])
    else (st.1, cur)
  let st := tops.foldl step ([], [])
  if st.2 = [] then st.1 else st.1 ++ [joinWith [' '] st.2]

/-- `summarize_text` from `summarize.py`.  (The `summary` built from the top
sentences — citation-cleaned and list-formatted — is computed and then
discarded by the source, which returns the regrouped paragraphs instead; the
model reproduces that.) -/
def summarize_text (text : String) (num_sentences : Nat) : String :=
  let t0 := clean_citations text.data
  let t1 := stripWs (normSpace t0)
  let sentences := ((splitSentences t1).map stripWs).filter (fun s => s ≠ [])
  if sentences.length ≤ num_sentences then
    String.mk (joinWith "\n\n".data sentences)
  else
    let ws := reWords t1
    let score := fun i => sentenceScore ws (sentences.getD i [])
    let top := sortAsc ((sortDescBy score (List.range sentences.length)).take
      num_sentences)
    let top_sentences := top.map (fun i => sentences.getD i [])
    let summary := joinWith [' '] top_sentences
    let summary := clean_citations summary
    let _discarded := format_lists summary
    let improved := (groupParagraphs top_sentences).map improveParagraph
    String.mk (joinWith "\n\n".data improved)

/-- The `__main__` block of `summarize.py` invoked with readable input and a
writable output path and no length argument (so the default of 3 sentences):
reads the input, writes the summary, exits 0. -/
def summarize_main (input : String) : Nat × String :=
  (0, summarize_text input 3)

/-! ## Spec-side definitions

`stepGroupMatches`/`specMatchedSteps` restate, in the spec's words, which
registry step each keyword group of the heuristic selector belongs to; the
C6 theorem compares the selector against them. -/

/-- The keyword group of a registry step, as the spec describes the pairing. -/
def stepGroupMatches (name : String) (req : String) : Bool :=
  if name = "data-cleaning" then cleaningGroupHit (pyLower req.data)
  else if name = "sentiment-analysis" then sentimentGroupHit (pyLower req.data)
  else if name = "text-summarization" then summarizationGroupHit (pyLower req.data)
  else false

/-- The spec's "steps of exactly the keyword groups that match, in registry
declaration order". -/
def specMatchedSteps (req : String) : List String :=
  registry_names.filter (fun n => stepGroupMatches n req)

/-! ## Theorems -/

theorem digitsVal_natReprAux : ∀ (fuel n : Nat), n ≤ fuel → digitsVal (natReprAux fuel n) = n := by
  intro fuel
  induction fuel with
  | zero => intro n h; interval_cases n; rfl
  | succ f ih =>
    intro n h
    match n with
    | 0 => rfl
    | m + 1 =>
      have hdiv : (m + 1) / 10 ≤ f := by
        have : (m + 1) / 10 < m + 1 := Nat.div_lt_self (Nat.succ_pos m) (by omega)
        omega
      have hd : ((m + 1) % 10) < 10 := Nat.mod_lt _ (by omega)
      have hchar : (Nat.digitChar ((m + 1) % 10)).toNat - 48 = (m + 1) % 10 := by
        set d := (m + 1) % 10 with hdd
        interval_cases d <;> decide
      simp only [natReprAux, digitsVal, hchar, ih _ hdiv]
      omega

theorem natReprAux_ne_zero_val (fuel n : Nat) (hn : 0 < n) (h : n ≤ fuel) :
    digitsVal (natReprAux fuel n) ≠ 0 := by
  rw [digitsVal_natReprAux fuel n h]; omega

theorem natRepr_injective : Function.Injective natRepr := by
  intro a b hab
  unfold natRepr at hab
  by_cases ha : a = 0 <;> by_cases hb : b = 0
  · omega
  · exfalso
    simp only [ha, if_pos rfl, if_neg hb] at hab
    have hd : "0".data = ((natReprAux b b).reverse : List Char) := by
      have := congrArg String.data hab; simpa using this
    have hrev : (natReprAux b b) = ['0'] := by
      have h2 : (natReprAux b b).reverse = ['0'] := hd.symm
      have := congrArg List.reverse h2
      simpa using this
    have := natReprAux_ne_zero_val b b (by omega) (le_refl b)
    rw [hrev] at this
    exact this rfl
  · exfalso
    simp only [hb, if_pos rfl, if_neg ha] at hab
    have hd : ((natReprAux a a).reverse : List Char) = "0".data := by
      have := congrArg String.data hab; simpa using this
    have hrev : (natReprAux a a) = ['0'] := by
      have := congrArg List.reverse hd
      simpa using this
    have := natReprAux_ne_zero_val a a (by omega) (le_refl a)
    rw [hrev] at this
    exact this rfl
  · simp only [if_neg ha, if_neg hb] at hab
    have hdata : ((natReprAux a a).reverse : List Char) = (natReprAux b b).reverse := by
      have := congrArg String.data hab; simpa using this
    have hlists : natReprAux a a = natReprAux b b := by
      have := congrArg List.reverse hdata; simpa using this
    have := congrArg digitsVal hlists
    rwa [digitsVal_natReprAux a a (le_refl a), digitsVal_natReprAux b b (le_refl b)] at this

theorem outPath_inj {t : String} {i j : Nat} (h : outPath t i = outPath t j) : i = j := by
  unfold outPath at h
  have hd := congrArg String.data h
  simp only [String.data_append, List.append_assoc] at hd
  have h1 := List.append_cancel_left hd
  have h2 := List.append_cancel_left h1
  have h3 : (natRepr i).data = (natRepr j).data := List.append_cancel_right h2
  exact natRepr_injective (String.ext h3)

theorem initialInput_ne_outPath (t : String) (i : Nat) :
    initialInput t ≠ outPath t i := by
  intro h
  unfold initialInput outPath at h
  have hd := congrArg String.data h
  simp only [String.data_append, List.append_assoc] at hd
  have h1 := List.append_cancel_left hd
  simp at h1

theorem run_container_container (c a b : String) (o : RunOutcome) :
    (run_container c a b o).container = c := by
  cases o <;> rfl

theorem run_container_status (c a b : String) (o : RunOutcome) :
    (run_container c a b o).status = if isOk o then Status.success else Status.error := by
  cases o <;> rfl

theorem runSeqAux_len (td : String) (oc : Nat → RunOutcome) :
    ∀ (cs : List String) (i0 : Nat) (cur : String),
      (runSeqAux td oc cs i0 cur).1.length ≤ cs.length := by
  intro cs
  induction cs with
  | nil => intro i0 cur; simp [runSeqAux]
  | cons c rest ih =>
    intro i0 cur
    simp only [runSeqAux]
    split
    · simp
    · simpa using ih (i0 + 1) (outPath td i0)

theorem runSeqAux_fail (td : String) (oc : Nat → RunOutcome) :
    ∀ (cs : List String) (k i0 : Nat) (cur : String),
      k < cs.length →
      (∀ j, j < k → isOk (oc (i0 + j)) = true) →
      isOk (oc (i0 + k)) = false →
      (runSeqAux td oc cs i0 cur).1.length = k + 1 ∧
      (runSeqAux td oc cs i0 cur).1.map StepResult.container = cs.take (k + 1) ∧
      (runSeqAux td oc cs i0 cur).1.map StepResult.status
        = List.replicate k Status.success ++ [Status.error] ∧
      (runSeqAux td oc cs i0 cur).2 = (if k = 0 then cur else outPath td (i0 + k - 1)) := by
  intro cs
  induction cs with
  | nil => intro k i0 cur hk; simp at hk
  | cons c rest ih =>
    intro k i0 cur hk hpre hfail
    match k with
    | 0 =>
      have hst : (run_container c cur (outPath td i0) (oc i0)).status = Status.error := by
        rw [run_container_status]
        simp only [Nat.add_zero] at hfail
        simp [hfail]
      simp [runSeqAux, hst, run_container_container]
    | k' + 1 =>
      have h0 : isOk (oc i0) = true := by
        have := hpre 0 (by omega)
        simpa using this
      have hst : (run_container c cur (outPath td i0) (oc i0)).status = Status.success := by
        rw [run_container_status, h0]; rfl
      have hrec := ih k' (i0 + 1) (outPath td i0) (by simpa using Nat.lt_of_succ_lt_succ hk)
        (fun j hj => by
          have := hpre (j + 1) (by omega)
          rwa [show i0 + (j + 1) = i0 + 1 + j by omega] at this)
        (by
          have := hfail
          rwa [show i0 + (k' + 1) = i0 + 1 + k' by omega] at this)
      simp only [runSeqAux, hst]
      rw [if_neg (by decide : ¬ (Status.success = Status.error))]
      refine ⟨by simpa using hrec.1, ?_, ?_, ?_⟩
      · simp only [List.map_cons, run_container_container, List.take_succ_cons]
        rw [hrec.2.1]
      · simp only [List.map_cons, hst, List.replicate_succ, List.cons_append]
        rw [hrec.2.2.1]
      · rw [hrec.2.2.2]
        match k' with
        | 0 => simp
        | m + 1 =>
          simp only [if_neg (Nat.succ_ne_zero m), if_neg (Nat.succ_ne_zero (m + 1))]
          congr 1
          omega

theorem runSeqAux_allOk (td : String) (oc : Nat → RunOutcome) :
    ∀ (cs : List String) (i0 : Nat) (cur : String),
      (∀ j, j < cs.length → isOk (oc (i0 + j)) = true) →
      (runSeqAux td oc cs i0 cur).2
        = (if cs = [] then cur else outPath td (i0 + cs.length - 1)) := by
  intro cs
  induction cs with
  | nil => intro i0 cur _; simp [runSeqAux]
  | cons c rest ih =>
    intro i0 cur hall
    have h0 : isOk (oc i0) = true := by
      have := hall 0 (by simp)
      simpa using this
    have hst : (run_container c cur (outPath td i0) (oc i0)).status = Status.success := by
      rw [run_container_status, h0]; rfl
    simp only [runSeqAux, hst]
    rw [if_neg (by decide : ¬ (Status.success = Status.error))]
    have hrec := ih (i0 + 1) (outPath td i0)
      (fun j hj => by
        have := hall (j + 1) (by simpa using Nat.succ_lt_succ hj)
        rwa [show i0 + (j + 1) = i0 + 1 + j by omega] at this)
    rw [hrec]
    match rest with
    | [] => simp
    | r :: rs =>
      simp only [if_neg (by simp : ¬ (r :: rs = []))]
      have : ¬ (c :: r :: rs = []) := by simp
      rw [if_neg this]
      congr 1
      simp [List.length_cons]
      omega

theorem dedup_length_one_iff (cs : List String) (h : cs ≠ []) :
    cs.dedup.length = 1 ↔ ∀ a ∈ cs, ∀ b ∈ cs, a = b := by
  constructor
  · intro h1 a ha b hb
    obtain ⟨x, hx⟩ := List.length_eq_one.mp h1
    have hax : a ∈ cs.dedup := List.mem_dedup.mpr ha
    have hbx : b ∈ cs.dedup := List.mem_dedup.mpr hb
    rw [hx] at hax hbx
    simp at hax hbx
    rw [hax, hbx]
  · intro hall
    obtain ⟨c, cs', rfl⟩ := List.exists_cons_of_ne_nil h
    have hc : c ∈ (c :: cs').dedup := List.mem_dedup.mpr (by simp)
    have hall' : ∀ x ∈ (c :: cs').dedup, x = c := fun x hx =>
      hall x (List.mem_dedup.mp hx) c (by simp)
    have hnd := List.nodup_dedup (c :: cs')
    match hd : (c :: cs').dedup with
    | [] => rw [hd] at hc; simp at hc
    | [x] => rfl
    | x :: y :: t =>
      exfalso
      rw [hd] at hnd
      have hx := hall' x (by rw [hd]; simp)
      have hy := hall' y (by rw [hd]; simp)
      rw [List.nodup_cons] at hnd
      exact hnd.1 (by rw [hx, hy]; simp)

theorem mock_mem_registry (req : String) :
    ∀ c ∈ mock_determine_containers req, c ∈ registry_names := by
  intro c hc
  unfold mock_determine_containers at hc
  cases h1 : cleaningGroupHit (pyLower req.data) <;>
    cases h2 : sentimentGroupHit (pyLower req.data) <;>
      cases h3 : summarizationGroupHit (pyLower req.data) <;>
        simp only [h1, h2, h3, if_true, if_false, List.nil_append, List.append_nil,
          List.cons_append, reduceIte] at hc <;>
        (simp at hc; rcases hc with rfl | rfl | rfl <;> decide)

/-- C1: the claim says every parallel-eligible plan assigns pairwise distinct
output paths to the dispatched steps.  The code refutes it: `container_files`
is keyed by the container name and eligibility forces all names equal, so for
the eligible plan `["data-cleaning", "data-cleaning"]` both dispatched steps
receive the same output path `output_1.txt` (each does read the shared input
path, as claimed). -/
theorem c1_parallel_output_slots_collide :
    use_parallel { parallel_execution := true } ["data-cleaning", "data-cleaning"] = true ∧
    dispatchedInputs "/tmp/run" ["data-cleaning", "data-cleaning"]
      = [initialInput "/tmp/run", initialInput "/tmp/run"] ∧
    dispatchedOutputs "/tmp/run" ["data-cleaning", "data-cleaning"]
      = [outPath "/tmp/run" 1, outPath "/tmp/run" 1] ∧
    ¬ List.Pairwise (fun a b => a ≠ b)
        (dispatchedOutputs "/tmp/run" ["data-cleaning", "data-cleaning"]) := by
  refine ⟨by decide, by decide, by decide, ?_⟩
  intro h
  rw [show dispatchedOutputs "/tmp/run" ["data-cleaning", "data-cleaning"]
      = ["/tmp/run/output_1.txt", "/tmp/run/output_1.txt"] by decide,
    List.pairwise_cons] at h
  exact h.1 _ (by simp) rfl

/-- C2: the claim (and the repository's own docstring and container test) says
the cleaning step lowercases, removes `!!`, and keeps `text`.  The code refutes
all three on the spec's example: `clean_data` never lowercases and its
character whitelist preserves `!`, so the output equals the input — it keeps
`!!` and the capitals and contains no `text`. -/
theorem c2_cleaning_not_lowercased :
    clean_data "This is SOME TEXT!! With punctuation, and CAPITALS."
      = "This is SOME TEXT!! With punctuation, and CAPITALS." ∧
    containsL (clean_data "This is SOME TEXT!! With punctuation, and CAPITALS.").data
      "!!".data = true ∧
    pyLower (clean_data "This is SOME TEXT!! With punctuation, and CAPITALS.").data
      ≠ (clean_data "This is SOME TEXT!! With punctuation, and CAPITALS.").data ∧
    containsL (clean_data "This is SOME TEXT!! With punctuation, and CAPITALS.").data
      "text".data = false := by
  have h : clean_data "This is SOME TEXT!! With punctuation, and CAPITALS."
      = "This is SOME TEXT!! With punctuation, and CAPITALS." := by decide
  refine ⟨h, ?_, ?_, ?_⟩ <;> rw [h] <;> decide

/-- C7: parameter extraction is a total function of the request text;
`"summarize this to 2 sentences"` yields `summary_length = 2` and no parallel
flag; a request matching neither the length template nor a parallel synonym
yields the empty parameter dict; a parallel synonym sets the flag. -/
theorem c7_parameter_extraction (req : String) :
    extract_parameters "summarize this to 2 sentences"
      = { summary_length := some 2, parallel_execution := false } ∧
    (searchSummarizeLen (pyLower req.data) = none → hasParallelHint req = false →
      extract_parameters req = {}) ∧
    (hasParallelHint req = true → (extract_parameters req).parallel_execution = true) := by
  refine ⟨by decide, ?_, ?_⟩
  · intro h1 h2
    simp [extract_parameters, h1, h2]
  · intro h
    simp [extract_parameters, h]

/-- C7 witness: the theorem applied at requests with and without matches. -/
theorem c7_parameter_extraction_witness :
    extract_parameters "hello world" = {} ∧
    (extract_parameters "run these concurrently").parallel_execution = true :=
  ⟨(c7_parameter_extraction "hello world").2.1 (by decide) (by decide),
   (c7_parameter_extraction "run these concurrently").2.2 (by decide)⟩

/-- C8: each of the three step programs, given an empty (readable) input file
and a writable output path, exits with status 0 and writes an output file
(empty for cleaning and summarization, the neutral dict for sentiment). -/
theorem c8_empty_input_safe :
    data_cleaning_main "" = (0, "") ∧
    sentiment_analysis_main ""
      = (0, { score := 0, positive_words := 0, negative_words := 0
            , classification := "neutral" }) ∧
    summarize_main "" = (0, "") := by
  refine ⟨by decide, ?_, by decide⟩
  show (0, analyze_sentiment "") = _
  have : analyze_sentiment ""
      = { score := 0, positive_words := 0, negative_words := 0
        , classification := "neutral" } := by
    simp [analyze_sentiment, reWords, pySplitWhitespace, pySplitWsAux, pyLower]
  rw [this]

/-- C4: parallel execution is chosen iff a parallel hint was extracted, the
plan has more than one step, and all planned step names are identical; in
particular `[A, A]` with a hint is eligible while `[A, B]` with a hint is not. -/
theorem c4_parallel_eligibility (p : Params) (cs : List String) :
    (use_parallel p cs = true ↔
      p.parallel_execution = true ∧ 1 < cs.length ∧ ∀ a ∈ cs, ∀ b ∈ cs, a = b) ∧
    use_parallel { parallel_execution := true } ["data-cleaning", "data-cleaning"] = true ∧
    use_parallel { parallel_execution := true } ["data-cleaning", "sentiment-analysis"]
      = false := by
  refine ⟨?_, by decide, by decide⟩
  unfold use_parallel can_run_in_parallel
  simp only [Bool.and_eq_true, decide_eq_true_eq]
  constructor
  · rintro ⟨⟨hp, hlen⟩, hded⟩
    have hne : cs ≠ [] := by
      intro hcon; rw [hcon] at hlen; simp at hlen
    exact ⟨hp, hlen, (dedup_length_one_iff cs hne).mp (by simpa using hded)⟩
  · rintro ⟨hp, hlen, hall⟩
    have hne : cs ≠ [] := by
      intro hcon; rw [hcon] at hlen; simp at hlen
    exact ⟨⟨hp, hlen⟩, by simpa using (dedup_length_one_iff cs hne).mpr hall⟩

/-- C5: the selector is a total function (it never propagates a failure): a
classifier call exception (timeout, transport error) and a malformed (non-JSON)
reply both yield exactly the heuristic selection; every plan it returns, on any
classifier outcome, contains only registry names (unknown names are dropped);
and when some suggested names are valid the plan is exactly the suggested list
filtered to the registry, in order. -/
theorem c5_selector_never_raises (req : String) (cs : List String) :
    determine_containers .callError req = mock_determine_containers req ∧
    determine_containers .malformedJson req = mock_determine_containers req ∧
    (∀ resp : ClassifierResponse, ∀ c ∈ determine_containers resp req,
      c ∈ registry_names) ∧
    (validateContainers cs ≠ [] →
      determine_containers (.jsonList cs) req
        = cs.filter (fun c => registry_names.contains c)) ∧
    (validateContainers cs ≠ [] →
      determine_containers (.jsonObjContainers cs) req
        = cs.filter (fun c => registry_names.contains c)) := by
  refine ⟨rfl, rfl, ?_, ?_, ?_⟩
  · intro resp c hc
    match resp with
    | .callError => exact mock_mem_registry req c hc
    | .malformedJson => exact mock_mem_registry req c hc
    | .jsonOther => simp [determine_containers] at hc
    | .jsonList cs' =>
        simp only [determine_containers] at hc
        split at hc
        · exact mock_mem_registry req c hc
        · have := (List.mem_filter.mp hc).2
          simpa using this
    | .jsonObjContainers cs' =>
        simp only [determine_containers] at hc
        split at hc
        · exact mock_mem_registry req c hc
        · have := (List.mem_filter.mp hc).2
          simpa using this
  · intro hval
    simp only [determine_containers, validateContainers]
    rw [if_neg (by simp [validateContainers] at hval; simp [hval])]
  · intro hval
    simp only [determine_containers, validateContainers]
    rw [if_neg (by simp [validateContainers] at hval; simp [hval])]

/-- C5 witness: the theorem applied to a concrete mixed suggestion list. -/
theorem c5_selector_never_raises_witness :
    determine_containers (.jsonList ["data-cleaning", "bogus"]) "x"
      = ["data-cleaning", "bogus"].filter (fun c => registry_names.contains c) :=
  (c5_selector_never_raises "x" ["data-cleaning", "bogus"]).2.2.2.1 (by decide)

/-- C6: the heuristic selector returns exactly the steps of the matching
keyword groups, each at most once, in registry declaration order, and the fixed
default `["data-cleaning"]` when no group matches; it is a pure function of the
request, hence deterministic. -/
theorem c6_heuristic_selector (req : String) :
    mock_determine_containers req
      = (if specMatchedSteps req = [] then ["data-cleaning"] else specMatchedSteps req) ∧
    (mock_determine_containers req).Nodup := by
  unfold mock_determine_containers specMatchedSteps stepGroupMatches registry_names
    available_containers
  cases h1 : cleaningGroupHit (pyLower req.data) <;>
    cases h2 : sentimentGroupHit (pyLower req.data) <;>
      cases h3 : summarizationGroupHit (pyLower req.data) <;>
        simp [h1, h2, h3, List.filter]

/-- C3: in sequential mode, when step `k` is the first to fail, the result list
is exactly the results of steps `0..k` — `k` predecessors succeeded, step `k`
errored, later steps are never invoked — and for every run (any mode, any
outcome) the number of step results is bounded by the plan length. -/
theorem c3_sequential_halt (td : String) (oc : Nat → RunOutcome) (cs : List String)
    (k : Nat) (hk : k < cs.length)
    (hpre : ∀ j, j < k → isOk (oc j) = true)
    (hfail : isOk (oc k) = false) :
    (runSequential td oc cs).1.length = k + 1 ∧
    (runSequential td oc cs).1.map StepResult.container = cs.take (k + 1) ∧
    (runSequential td oc cs).1.map StepResult.status
      = List.replicate k Status.success ++ [Status.error] ∧
    (∀ (um : Bool) (resp : ClassifierResponse) (td' : String)
      (oc' : Nat → RunOutcome) (q : String) (t : Option String) (run : RunRecord),
      process_request um resp td' oc' q t = .success run →
      run.results.length ≤ run.execution_plan.length) := by
  have h := runSeqAux_fail td oc cs k 0 (initialInput td) hk
    (fun j hj => by simpa using hpre j hj) (by simpa using hfail)
  refine ⟨h.1, h.2.1, h.2.2.1, ?_⟩
  intro um resp td' oc' q t run hpr
  unfold process_request at hpr
  cases t with
  | none => simp at hpr
  | some txt =>
    simp only at hpr
    generalize (if um then mock_determine_containers q
      else determine_containers resp q) = cs0 at hpr
    split at hpr
    · simp at hpr
    · split at hpr
      · simp at hpr
      · split at hpr
        · injection hpr with h2
          rw [← h2]
          simp [List.length_map, List.enum_length]
        · injection hpr with h2
          rw [← h2]
          simpa using runSeqAux_len td' oc' cs0 0 (initialInput td')

/-- C3 witness: the theorem applied to a three-step plan whose second step
fails. -/
theorem c3_sequential_halt_witness :
    (runSequential "/t" (fun j => if j = 1 then .failed "boom" else .ok)
      ["data-cleaning", "sentiment-analysis", "text-summarization"]).1.length = 1 + 1 ∧
    (runSequential "/t" (fun j => if j = 1 then .failed "boom" else .ok)
      ["data-cleaning", "sentiment-analysis", "text-summarization"]).1.map
        StepResult.container
      = ["data-cleaning", "sentiment-analysis", "text-summarization"].take (1 + 1) ∧
    (runSequential "/t" (fun j => if j = 1 then .failed "boom" else .ok)
      ["data-cleaning", "sentiment-analysis", "text-summarization"]).1.map
        StepResult.status
      = List.replicate 1 Status.success ++ [Status.error] := by
  have h := c3_sequential_halt "/t" (fun j => if j = 1 then .failed "boom" else .ok)
    ["data-cleaning", "sentiment-analysis", "text-summarization"] 1
    (by decide) (by intro j hj; interval_cases j; rfl) (by rfl)
  exact ⟨h.1, h.2.1, h.2.2.1⟩

/-- C9: the front end answers a missing/empty `request` or `text` with a 400
client error; an uncaught core exception with a 500 carrying its message; and
any returned orchestrator value — including the domain-error dicts for missing
input or an empty plan — travels as a 200 whose body carries the `error`
field, so transport failure and domain failure are never conflated. -/
theorem c9_front_end_boundary (req text : Option String) (core : CoreBehavior)
    (msg : String) (r : OrchResult) :
    ((falsyStr req || falsyStr text) = true →
      app_process req text core
        = (400, .errorBody "Request and input text are required")) ∧
    ((falsyStr req || falsyStr text) = false →
      app_process req text (.throws msg) = (500, .errorBody msg)) ∧
    ((falsyStr req || falsyStr text) = false →
      app_process req text (.returns r) = (200, .resultBody r)) ∧
    bodyHasErrorField (.resultBody (.domainError msg)) = true ∧
    (∀ (um : Bool) (resp : ClassifierResponse) (td : String) (oc : Nat → RunOutcome)
      (q : String),
      process_request um resp td oc q none = .domainError "No input text provided") ∧
    (∀ (td : String) (oc : Nat → RunOutcome) (q : String) (t : String), t ≠ "" →
      process_request false .jsonOther td oc q (some t)
        = .domainError "Could not determine which containers to run") := by
  refine ⟨?_, ?_, ?_, rfl, ?_, ?_⟩
  · intro h; simp [app_process, h]
  · intro h; simp [app_process, h]
  · intro h; simp [app_process, h]
  · intro um resp td oc q; rfl
  · intro td oc q t ht
    simp [process_request, determine_containers, ht]

/-- C9 witness: the theorem applied at the three boundary outcomes and the
empty-plan domain error. -/
theorem c9_front_end_boundary_witness :
    app_process none (some "text") (.returns (.domainError "x"))
      = (400, .errorBody "Request and input text are required") ∧
    app_process (some "clean") (some "text") (.throws "Test exception")
      = (500, .errorBody "Test exception") ∧
    app_process (some "clean") (some "text")
        (.returns (.domainError "Could not determine which containers to run"))
      = (200, .resultBody (.domainError "Could not determine which containers to run")) ∧
    process_request false .jsonOther "/t" (fun _ => .ok) "clean" (some "hi")
      = .domainError "Could not determine which containers to run" :=
  ⟨(c9_front_end_boundary none (some "text") (.returns (.domainError "x")) "m"
      (.domainError "x")).1 (by decide),
   (c9_front_end_boundary (some "clean") (some "text") (.throws "Test exception")
      "Test exception" (.domainError "x")).2.1 (by decide),
   (c9_front_end_boundary (some "clean") (some "text")
      (.returns (.domainError "Could not determine which containers to run"))
      "m" (.domainError "Could not determine which containers to run")).2.2.1
      (by decide),
   (c9_front_end_boundary (some "clean") (some "hi") (.throws "m") "m"
      (.domainError "x")).2.2.2.2.2 "/t" (fun _ => .ok) "clean" "hi" (by decide)⟩

/-- C10: in sequential mode, when step `k` is the first to fail, the final
output file is the previous step's output (the staged original input when the
very first step fails) and never the failed step's own output slot; on a fully
successful run it is the last planned step's output. -/
theorem c10_sequential_final_output (td : String) (oc : Nat → RunOutcome)
    (cs : List String) (k : Nat) :
    (k < cs.length → (∀ j, j < k → isOk (oc j) = true) → isOk (oc k) = false →
      (runSequential td oc cs).2
        = (if k = 0 then initialInput td else outPath td (k - 1)) ∧
      (runSequential td oc cs).2 ≠ outPath td k) ∧
    (cs ≠ [] → (∀ j, j < cs.length → isOk (oc j) = true) →
      (runSequential td oc cs).2 = outPath td (cs.length - 1)) := by
  constructor
  · intro hk hpre hfail
    simp only [runSequential]
    have h := runSeqAux_fail td oc cs k 0 (initialInput td) hk
      (fun j hj => by simpa using hpre j hj) (by simpa using hfail)
    have h2 := h.2.2.2
    simp only [Nat.zero_add] at h2
    refine ⟨h2, ?_⟩
    rw [h2]
    match k with
    | 0 => simpa using initialInput_ne_outPath td 0
    | m + 1 =>
      simp only [if_neg (Nat.succ_ne_zero m)]
      intro hcon
      have := outPath_inj hcon
      omega
  · intro hne hall
    have h := runSeqAux_allOk td oc cs 0 (initialInput td)
      (fun j hj => by simpa using hall j hj)
    simp only [Nat.zero_add, if_neg hne] at h
    exact h

/-- C10 witness: the theorem applied to a failing second step and to a fully
successful two-step run. -/
theorem c10_sequential_final_output_witness :
    (runSequential "/t" (fun j => if j = 1 then .failed "boom" else .ok)
      ["data-cleaning", "sentiment-analysis", "text-summarization"]).2
      = (if 1 = 0 then initialInput "/t" else outPath "/t" (1 - 1)) ∧
    (runSequential "/t" (fun j => if j = 1 then .failed "boom" else .ok)
      ["data-cleaning", "sentiment-analysis", "text-summarization"]).2
      ≠ outPath "/t" 1 ∧
    (runSequential "/t" (fun _ => .ok) ["data-cleaning", "text-summarization"]).2
      = outPath "/t" (["data-cleaning", "text-summarization"].length - 1) := by
  have h1 := (c10_sequential_final_output "/t"
    (fun j => if j = 1 then .failed "boom" else .ok)
    ["data-cleaning", "sentiment-analysis", "text-summarization"] 1).1
    (by decide) (by intro j hj; interval_cases j; rfl) (by rfl)
  have h2 := (c10_sequential_final_output "/t" (fun _ => .ok)
    ["data-cleaning", "text-summarization"] 0).2
    (by decide) (by intro j hj; rfl)
  exact ⟨h1.1, h1.2, h2⟩

/-- C4 witness: eligibility established through the characterization. -/
theorem c4_parallel_eligibility_witness :
    use_parallel { parallel_execution := true } ["data-cleaning", "data-cleaning"]
      = true :=
  (c4_parallel_eligibility { parallel_execution := true }
    ["data-cleaning", "data-cleaning"]).1.mpr
    ⟨rfl, by decide, by decide⟩

/-- C6 witness: the characterization applied to a two-group request. -/
theorem c6_heuristic_selector_witness :
    mock_determine_containers "Clean and summarize this"
      = (if specMatchedSteps "Clean and summarize this" = [] then ["data-cleaning"]
         else specMatchedSteps "Clean and summarize this") :=
  (c6_heuristic_selector "Clean and summarize this").1
